import Mathlib

/-!
Verification of the jsonschema-rs keyword families in
src/keywords/exclusive_minimum.rs and src/keywords/additional_properties.rs.

The embedding models serde_json values, the three numeric-representation
exclusiveMinimum validators, and the eight additionalProperties validator
variants.  External collaborators (the compile_validators entry point and the
regex engine) are embedded as explicit parameters; their behaviorally relevant
facts become hypotheses of the theorems.
-/

set_option autoImplicit false

namespace JsonschemaRs

/--
Auxiliary scaling loop for the integer-to-f64 cast: counts how many halvings
bring a natural number under 2 to the 53 (the f64 significand width).  Fuel 64
suffices for any u64.
-/
def scaleAux : Nat → Nat → Nat
  | 0, _ => 0
  | fuel + 1, m => if m < 2 ^ 53 then 0 else scaleAux fuel (m / 2) + 1

/--
Models the Rust cast from u64 to f64 (round to nearest, ties to even) for
values below 2 to the 64, returning the exact rational value of the resulting
double.  Values with at most 53 significant bits are preserved exactly.
-/
def castF64Nat (n : Nat) : Rat :=
  let e := scaleAux 64 n
  if e = 0 then (n : Rat)
  else
    let q := n / 2 ^ e
    let r := n % 2 ^ e
    let h := 2 ^ (e - 1)
    if r < h ∨ (r = h ∧ q % 2 = 0) then ((q * 2 ^ e : Nat) : Rat)
    else (((q + 1) * 2 ^ e : Nat) : Rat)

/-- Models the Rust cast from i64 to f64, via the cast of the magnitude. -/
def castF64Int (i : Int) : Rat :=
  if 0 ≤ i then castF64Nat i.toNat else -(castF64Nat (-i).toNat)

/--
Models serde_json Number, which stores a JSON number as a u64 when it is a
non-negative integer in u64 range, as an i64 when it is a negative integer in
i64 range, and otherwise as an f64.  The f64 payload is carried as its exact
rational value (every finite double is a rational; JSON cannot denote NaN or
infinities).  Invariants from serde_json: in pos n, n is below 2 to the 64;
in neg m, m is negative and at least -(2 to the 63).
-/
inductive JNumber where
  | pos (n : Nat)
  | neg (m : Int)
  | flt (q : Rat)

/-- Models serde_json Number::as_u64: only the u64-stored variant answers. -/
def JNumber.as_u64 : JNumber → Option Nat
  | .pos n => some n
  | _ => none

/--
Models serde_json Number::as_i64: a u64-stored value answers when it fits in
i64, an i64-stored value answers directly, a float never answers.
-/
def JNumber.as_i64 : JNumber → Option Int
  | .pos n => if n ≤ 2 ^ 63 - 1 then some (n : Int) else none
  | .neg m => some m
  | .flt _ => none

/--
Models serde_json Number::as_f64, which always succeeds here (the code
unwraps it with expect): integer-stored values go through the numeric cast,
float-stored values are returned as stored.
-/
def JNumber.as_f64R : JNumber → Rat
  | .pos n => castF64Nat n
  | .neg m => castF64Int m
  | .flt q => q

/-- Models serde_json Value: the instance and schema document tree. -/
inductive Value where
  | null
  | bool (b : Bool)
  | num (n : JNumber)
  | str (s : String)
  | arr (elems : List Value)
  | obj (entries : List (String × Value))

/-- Models serde_json Value::as_u64. -/
def Value.as_u64 : Value → Option Nat
  | .num n => n.as_u64
  | _ => none

/-- Models serde_json Value::as_i64. -/
def Value.as_i64 : Value → Option Int
  | .num n => n.as_i64
  | _ => none

/-- Models serde_json Value::as_f64. -/
def Value.as_f64 : Value → Option Rat
  | .num n => some n.as_f64R
  | _ => none

/-- True when the value is an object. -/
def Value.isObj : Value → Bool
  | .obj _ => true
  | _ => false

/-- True when the value is a number. -/
def Value.isNum : Value → Bool
  | .num _ => true
  | _ => false

/--
Models ValidationError (error.rs): only the two kinds the verified keywords
produce.  false_schema carries the offending value; exclusive_minimum carries
the offending value and the limit as an f64 (exact rational of that double).
-/
inductive ValidationError where
  | falseSchema (inst : Value)
  | exclusiveMinimum (inst : Value) (limit : Rat)

/-- Models CompilationError (error.rs). -/
inductive CompilationError where
  | schemaError

/--
Models the three validator structs ExclusiveMinimumU64Validator,
ExclusiveMinimumI64Validator and ExclusiveMinimumF64Validator as one closed
sum, tagged by the representation of the stored limit.
-/
inductive ExclusiveMinimumValidator where
  | U64 (limit : Nat)
  | I64 (limit : Int)
  | F64 (limit : Rat)

namespace ExclusiveMinimumValidator

/-- The compiled limit, cast to f64, as used by build_validation_error. -/
def limit_as_f64 : ExclusiveMinimumValidator → Rat
  | .U64 l => castF64Nat l
  | .I64 l => castF64Int l
  | .F64 l => l

/--
Models build_validation_error from the validate macro: the violation records
the instance and the limit cast to f64.
-/
def build_validation_error (v : ExclusiveMinimumValidator) (inst : Value) :
    ValidationError :=
  .exclusiveMinimum inst v.limit_as_f64

/--
Models is_valid_unsigned_integer: NumCmp::num_gt of the u64 instance against
the limit, an exact comparison for every limit representation (the float case
compares the exact rational values, which is what num_cmp guarantees).
-/
def is_valid_unsigned_integer : ExclusiveMinimumValidator → Nat → Bool
  | .U64 l, u => decide (l < u)
  | .I64 l, u => decide (l < (u : Int))
  | .F64 l, u => decide (l < (u : Rat))

/-- Models is_valid_signed_integer: exact NumCmp::num_gt of an i64 instance. -/
def is_valid_signed_integer : ExclusiveMinimumValidator → Int → Bool
  | .U64 l, i => decide ((l : Int) < i)
  | .I64 l, i => decide (l < i)
  | .F64 l, i => decide (l < (i : Rat))

/-- Models is_valid_number: exact NumCmp::num_gt of an f64 instance. -/
def is_valid_number : ExclusiveMinimumValidator → Rat → Bool
  | .U64 l, q => decide ((l : Rat) < q)
  | .I64 l, q => decide ((l : Rat) < q)
  | .F64 l, q => decide (l < q)

/--
Models is_valid from the validate macro: dispatch on the instance value's
stored numeric representation (as_u64, then as_i64, then as_f64), vacuously
true for non-numbers.
-/
def is_valid (v : ExclusiveMinimumValidator) (inst : Value) : Bool :=
  match inst.as_u64 with
  | some u => v.is_valid_unsigned_integer u
  | none =>
    match inst.as_i64 with
    | some i => v.is_valid_signed_integer i
    | none =>
      match inst.as_f64 with
      | some q => v.is_valid_number q
      | none => true

/--
Modelled from the spec: the Validate trait's default validate_unsigned_integer
(validator.rs is outside the provided sources) reports no violation when the
shape-specific check passes and otherwise one violation built by
build_validation_error.
-/
def validate_unsigned_integer (v : ExclusiveMinimumValidator) (inst : Value)
    (u : Nat) : List ValidationError :=
  if v.is_valid_unsigned_integer u then [] else [v.build_validation_error inst]

/--
Modelled from the spec: the Validate trait's default validate_signed_integer,
as for the unsigned case.
-/
def validate_signed_integer (v : ExclusiveMinimumValidator) (inst : Value)
    (i : Int) : List ValidationError :=
  if v.is_valid_signed_integer i then [] else [v.build_validation_error inst]

/--
Modelled from the spec: the Validate trait's default validate_number, as for
the integer cases.
-/
def validate_number (v : ExclusiveMinimumValidator) (inst : Value)
    (q : Rat) : List ValidationError :=
  if v.is_valid_number q then [] else [v.build_validation_error inst]

/--
Models validate from the validate macro: numbers dispatch through the same
representation chain as is_valid; non-numbers produce no_error.
-/
def validate (v : ExclusiveMinimumValidator) (inst : Value) :
    List ValidationError :=
  match inst with
  | .num n =>
    match n.as_u64 with
    | some u => v.validate_unsigned_integer inst u
    | none =>
      match n.as_i64 with
      | some i => v.validate_signed_integer inst i
      | none => v.validate_number inst n.as_f64R
  | _ => []

end ExclusiveMinimumValidator

namespace ExclusiveMinimum

/--
Models compile in exclusive_minimum.rs: a numeric limit picks the u64
validator when as_u64 answers, else the i64 validator when as_i64 answers,
else the f64 validator; a non-numeric limit is a schema error.
-/
def compile (schema : Value) :
    Option (Except CompilationError ExclusiveMinimumValidator) :=
  match schema with
  | .num limit =>
    match limit.as_u64 with
    | some l => some (.ok (.U64 l))
    | none =>
      match limit.as_i64 with
      | some l => some (.ok (.I64 l))
      | none => some (.ok (.F64 limit.as_f64R))
  | _ => some (.error .schemaError)

end ExclusiveMinimum

/--
Models a compiled regex from the regex crate (an external collaborator): only
its matching behavior on strings is relevant to the validators.
-/
structure Regex where
  is_match : String → Bool

/--
Models one compiled subordinate validator as produced by the external
compile_validators entry point: the dual-mode contract of the Validate trait,
restricted to what the additionalProperties variants call.
-/
structure SubValidator where
  is_valid : Value → Bool
  validate : Value → List ValidationError

/--
Models the eight validator structs of additional_properties.rs as one closed
sum: plainSchema is AdditionalPropertiesValidator, plainFalse is
AdditionalPropertiesFalseValidator, notEmptyFalse is
AdditionalPropertiesNotEmptyFalseValidator, notEmpty is
AdditionalPropertiesNotEmptyValidator, withPatterns is
AdditionalPropertiesWithPatternsValidator, withPatternsFalse is
AdditionalPropertiesWithPatternsFalseValidator, withPatternsNotEmpty is
AdditionalPropertiesWithPatternsNotEmptyValidator, and
withPatternsNotEmptyFalse is
AdditionalPropertiesWithPatternsNotEmptyFalseValidator.  The BTreeSet of
exempted property names is carried as the list of keys of the properties
object (membership is all that the validators use).
-/
inductive APValidator where
  | plainSchema (validators : List SubValidator)
  | plainFalse
  | notEmptyFalse (properties : List String)
  | notEmpty (validators : List SubValidator) (properties : List String)
  | withPatterns (validators : List SubValidator) (pattern : Regex)
  | withPatternsFalse (pattern : Regex)
  | withPatternsNotEmpty (validators : List SubValidator)
      (properties : List String) (pattern : Regex)
  | withPatternsNotEmptyFalse (properties : List String) (pattern : Regex)

namespace APValidator

/--
Models the is_valid_object methods of all eight variants: each checks every
subordinate validator on every non-exempt property value, or for the
boolean-false variants that every key is exempt (empty for the plain false
variant).
-/
def is_valid_object : APValidator → List (String × Value) → Bool
  | .plainSchema vs, entries =>
    vs.all fun sv => entries.all fun e => sv.is_valid e.2
  | .plainFalse, entries => entries.isEmpty
  | .notEmptyFalse props, entries => entries.all fun e => props.contains e.1
  | .notEmpty vs props, entries =>
    vs.all fun sv =>
      (entries.filter fun e => !props.contains e.1).all fun e =>
        sv.is_valid e.2
  | .withPatterns vs re, entries =>
    vs.all fun sv =>
      (entries.filter fun e => !re.is_match e.1).all fun e => sv.is_valid e.2
  | .withPatternsFalse re, entries => entries.all fun e => re.is_match e.1
  | .withPatternsNotEmpty vs props re, entries =>
    vs.all fun sv =>
      (entries.filter fun e =>
          !props.contains e.1 && !re.is_match e.1).all fun e => sv.is_valid e.2
  | .withPatternsNotEmptyFalse props re, entries =>
    entries.all fun e => props.contains e.1 || re.is_match e.1

/--
Models the is_valid methods of all eight variants: objects dispatch to
is_valid_object, every other shape is vacuously valid.
-/
def is_valid (v : APValidator) (inst : Value) : Bool :=
  match inst with
  | .obj entries => v.is_valid_object entries
  | _ => true

/--
Models the detailed checks on objects.  The subordinate-schema variants
concatenate, validator-major, the violations of each subordinate validator on
each non-exempt property value.  The exempting boolean-false variants report
one false_schema violation carrying the first non-exempt key as a string
(filter_map plus next, or find, in the source).  The plain false variant has
no validate_object of its own; modelled from the spec: the Validate trait's
default (validator.rs is outside the provided sources) reports a single
violation built by build_validation_error on the whole instance when
is_valid_object fails, and build_validation_error for that struct is
false_schema of the instance.
-/
def validate_object : APValidator → List (String × Value) → List ValidationError
  | .plainSchema vs, entries =>
    vs.flatMap fun sv => entries.flatMap fun e => sv.validate e.2
  | .plainFalse, entries =>
    if entries.isEmpty then [] else [.falseSchema (.obj entries)]
  | .notEmptyFalse props, entries =>
    match entries.find? (fun e => !props.contains e.1) with
    | some e => [.falseSchema (.str e.1)]
    | none => []
  | .notEmpty vs props, entries =>
    vs.flatMap fun sv =>
      (entries.filter fun e => !props.contains e.1).flatMap fun e =>
        sv.validate e.2
  | .withPatterns vs re, entries =>
    vs.flatMap fun sv =>
      (entries.filter fun e => !re.is_match e.1).flatMap fun e =>
        sv.validate e.2
  | .withPatternsFalse re, entries =>
    match entries.find? (fun e => !re.is_match e.1) with
    | some e => [.falseSchema (.str e.1)]
    | none => []
  | .withPatternsNotEmpty vs props re, entries =>
    vs.flatMap fun sv =>
      (entries.filter fun e =>
          !(props.contains e.1 || re.is_match e.1)).flatMap fun e =>
        sv.validate e.2
  | .withPatternsNotEmptyFalse props re, entries =>
    match entries.find? (fun e => !props.contains e.1 && !re.is_match e.1) with
    | some e => [.falseSchema (.str e.1)]
    | none => []

/--
Models the validate methods of all eight variants: objects dispatch to
validate_object, every other shape yields no_error.
-/
def validate (v : APValidator) (inst : Value) : List ValidationError :=
  match inst with
  | .obj entries => v.validate_object entries
  | _ => []

end APValidator

namespace AdditionalProperties

/--
Models serde_json Map::get on the parent schema object: the value at the
first entry with the given key.
-/
def getKey (m : List (String × Value)) (k : String) : Option Value :=
  (m.find? fun e => e.1 == k).map (·.2)

/--
Models the per-variant compile of AdditionalPropertiesValidator, with the
external compile_validators passed explicitly.
-/
def compilePlainSchema (schema : Value)
    (cv : Value → Except CompilationError (List SubValidator)) :
    Except CompilationError APValidator :=
  (cv schema).map .plainSchema

/-- Models AdditionalPropertiesNotEmptyFalseValidator::compile. -/
def compileNotEmptyFalse (properties : Value) :
    Except CompilationError APValidator :=
  match properties with
  | .obj es => .ok (.notEmptyFalse (es.map (·.1)))
  | _ => .error .schemaError

/-- Models AdditionalPropertiesNotEmptyValidator::compile. -/
def compileNotEmpty (schema properties : Value)
    (cv : Value → Except CompilationError (List SubValidator)) :
    Except CompilationError APValidator :=
  match properties with
  | .obj es => (cv schema).map fun vs => .notEmpty vs (es.map (·.1))
  | _ => .error .schemaError

/-- Models AdditionalPropertiesWithPatternsValidator::compile. -/
def compileWithPatterns (schema : Value) (re : Regex)
    (cv : Value → Except CompilationError (List SubValidator)) :
    Except CompilationError APValidator :=
  (cv schema).map fun vs => .withPatterns vs re

/-- Models AdditionalPropertiesWithPatternsNotEmptyValidator::compile. -/
def compileWithPatternsNotEmpty (schema properties : Value) (re : Regex)
    (cv : Value → Except CompilationError (List SubValidator)) :
    Except CompilationError APValidator :=
  match properties with
  | .obj es => (cv schema).map fun vs => .withPatternsNotEmpty vs (es.map (·.1)) re
  | _ => .error .schemaError

/-- Models AdditionalPropertiesWithPatternsNotEmptyFalseValidator::compile. -/
def compileWithPatternsNotEmptyFalse (properties : Value) (re : Regex) :
    Except CompilationError APValidator :=
  match properties with
  | .obj es => .ok (.withPatternsNotEmptyFalse (es.map (·.1)) re)
  | _ => .error .schemaError

/--
Models the dispatch-level compile in additional_properties.rs.  The external
collaborators are passed explicitly: rNew models Regex::new (none for an
unparseable pattern) and cv models compile_validators.  The joined pattern is
the keys of the patternProperties object interleaved with a vertical bar, as
in the source; an additionalProperties value of boolean true compiles to
nothing (None) once the patternProperties sibling, when present, has been
screened.
-/
def compile (parent : List (String × Value)) (schema : Value)
    (rNew : String → Option Regex)
    (cv : Value → Except CompilationError (List SubValidator)) :
    Option (Except CompilationError APValidator) :=
  let properties := getKey parent "properties"
  match getKey parent "patternProperties" with
  | some patterns =>
    match patterns with
    | .obj po =>
      let pattern := String.intercalate "|" (po.map (·.1))
      match rNew pattern with
      | some re =>
        match schema with
        | .bool true => none
        | .bool false =>
          match properties with
          | some props => some (compileWithPatternsNotEmptyFalse props re)
          | none => some (.ok (.withPatternsFalse re))
        | _ =>
          match properties with
          | some props => some (compileWithPatternsNotEmpty schema props re cv)
          | none => some (compileWithPatterns schema re cv)
      | none => some (.error .schemaError)
    | _ => some (.error .schemaError)
  | none =>
    match schema with
    | .bool true => none
    | .bool false =>
      match properties with
      | some props => some (compileNotEmptyFalse props)
      | none => some (.ok .plainFalse)
    | _ =>
      match properties with
      | some props => some (compileNotEmpty schema props cv)
      | none => some (compilePlainSchema schema cv)

end AdditionalProperties

/-! Claim theorems. -/

/--
The boolean/detail agreement contract for one subordinate validator: the
fast check accepts exactly when the detailed check reports nothing.
-/
def SubOk (sv : SubValidator) : Prop :=
  ∀ val, sv.is_valid val = true ↔ sv.validate val = []

/--
An additionalProperties validator whose subordinate validators (if any) all
satisfy the agreement contract; subordinate validators are themselves
compiled validators, so this is the system-wide invariant restricted to the
children.
-/
def APGood : APValidator → Prop
  | .plainSchema vs => ∀ sv ∈ vs, SubOk sv
  | .notEmpty vs _ => ∀ sv ∈ vs, SubOk sv
  | .withPatterns vs _ => ∀ sv ∈ vs, SubOk sv
  | .withPatternsNotEmpty vs _ _ => ∀ sv ∈ vs, SubOk sv
  | _ => True

/--
Agreement between the conjunction of subordinate boolean checks and the
emptiness of the concatenated subordinate violation lists, over any entry
list.
-/
theorem agree_flatMap (vs : List SubValidator) (h : ∀ sv ∈ vs, SubOk sv)
    (es : List (String × Value)) :
    ((vs.all fun sv => es.all fun e => sv.is_valid e.2) = true ↔
      (vs.flatMap fun sv => es.flatMap fun e => sv.validate e.2) = []) := by
  simp only [List.all_eq_true, List.flatMap_eq_nil_iff]
  exact forall₂_congr fun sv hsv => forall₂_congr fun e _ => h sv hsv e.2

/--
C1: for every compiled validator (all eight additionalProperties variants,
whose subordinate validators satisfy the same contract, and all three
exclusiveMinimum variants) and every instance, the fast boolean check accepts
exactly when the detailed check reports no violation.
-/
theorem C1_is_valid_iff_validate_empty :
    (∀ (v : APValidator), APGood v → ∀ (inst : Value),
        (v.is_valid inst = true ↔ v.validate inst = []))
    ∧ (∀ (w : ExclusiveMinimumValidator) (inst : Value),
        (w.is_valid inst = true ↔ w.validate inst = [])) := by
  constructor
  · intro v hv inst
    cases inst with
    | obj entries =>
      cases v with
      | plainSchema vs => exact agree_flatMap vs hv entries
      | plainFalse =>
        simp only [APValidator.is_valid, APValidator.validate,
          APValidator.is_valid_object, APValidator.validate_object]
        cases entries <;> simp
      | notEmptyFalse props =>
        simp only [APValidator.is_valid, APValidator.validate,
          APValidator.is_valid_object, APValidator.validate_object]
        cases hf : entries.find? (fun e => !props.contains e.1) with
        | some e =>
          have hx := List.find?_some hf
          have hmem := List.mem_of_find?_eq_some hf
          refine iff_of_false ?_ (by simp)
          simp only [List.all_eq_true]
          intro hall
          have h1 := hall e hmem
          rw [h1] at hx
          simp at hx
        | none =>
          rw [List.find?_eq_none] at hf
          refine iff_of_true ?_ rfl
          simp only [List.all_eq_true]
          intro x hxm
          have h := hf x hxm
          cases hc : props.contains x.1
          · rw [hc] at h
            simp at h
          · rfl
      | notEmpty vs props => exact agree_flatMap vs hv _
      | withPatterns vs re => exact agree_flatMap vs hv _
      | withPatternsFalse re =>
        simp only [APValidator.is_valid, APValidator.validate,
          APValidator.is_valid_object, APValidator.validate_object]
        cases hf : entries.find? (fun e => !re.is_match e.1) with
        | some e =>
          have hx := List.find?_some hf
          have hmem := List.mem_of_find?_eq_some hf
          refine iff_of_false ?_ (by simp)
          simp only [List.all_eq_true]
          intro hall
          have h1 := hall e hmem
          rw [h1] at hx
          simp at hx
        | none =>
          rw [List.find?_eq_none] at hf
          refine iff_of_true ?_ rfl
          simp only [List.all_eq_true]
          intro x hxm
          have h := hf x hxm
          cases hc : re.is_match x.1
          · rw [hc] at h
            simp at h
          · rfl
      | withPatternsNotEmpty vs props re =>
        simp only [APValidator.is_valid, APValidator.validate,
          APValidator.is_valid_object, APValidator.validate_object]
        have hfe : (fun (e : String × Value) =>
            !(props.contains e.1 || re.is_match e.1))
            = fun e => !props.contains e.1 && !re.is_match e.1 := by
          funext e
          exact Bool.not_or _ _
        rw [hfe]
        exact agree_flatMap vs hv _
      | withPatternsNotEmptyFalse props re =>
        simp only [APValidator.is_valid, APValidator.validate,
          APValidator.is_valid_object, APValidator.validate_object]
        cases hf : entries.find? (fun e => !props.contains e.1 && !re.is_match e.1) with
        | some e =>
          have hx := List.find?_some hf
          have hmem := List.mem_of_find?_eq_some hf
          refine iff_of_false ?_ (by simp)
          simp only [List.all_eq_true]
          intro hall
          have h1 := hall e hmem
          cases hc : props.contains e.1 <;> cases hm : re.is_match e.1 <;>
            rw [hc, hm] at hx h1 <;> simp_all
        | none =>
          rw [List.find?_eq_none] at hf
          refine iff_of_true ?_ rfl
          simp only [List.all_eq_true]
          intro x hxm
          have h := hf x hxm
          cases hc : props.contains x.1 <;> cases hm : re.is_match x.1 <;>
            rw [hc, hm] at h <;> simp_all
    | null =>
      simp [APValidator.is_valid, APValidator.validate]
    | bool b =>
      simp [APValidator.is_valid, APValidator.validate]
    | num n =>
      simp [APValidator.is_valid, APValidator.validate]
    | str s =>
      simp [APValidator.is_valid, APValidator.validate]
    | arr xs =>
      simp [APValidator.is_valid, APValidator.validate]
  · intro w inst
    cases inst with
    | num n =>
      simp only [ExclusiveMinimumValidator.is_valid,
        ExclusiveMinimumValidator.validate, Value.as_u64, Value.as_i64,
        Value.as_f64]
      cases hu : n.as_u64 with
      | some u =>
        simp only [ExclusiveMinimumValidator.validate_unsigned_integer]
        cases hb : w.is_valid_unsigned_integer u <;> simp [hb]
      | none =>
        cases hi : n.as_i64 with
        | some i =>
          simp only [ExclusiveMinimumValidator.validate_signed_integer]
          cases hb : w.is_valid_signed_integer i <;> simp [hb]
        | none =>
          simp only [ExclusiveMinimumValidator.validate_number]
          cases hb : w.is_valid_number n.as_f64R <;> simp [hb]
    | null =>
      simp [ExclusiveMinimumValidator.is_valid,
        ExclusiveMinimumValidator.validate, Value.as_u64, Value.as_i64,
        Value.as_f64]
    | bool b =>
      simp [ExclusiveMinimumValidator.is_valid,
        ExclusiveMinimumValidator.validate, Value.as_u64, Value.as_i64,
        Value.as_f64]
    | str s =>
      simp [ExclusiveMinimumValidator.is_valid,
        ExclusiveMinimumValidator.validate, Value.as_u64, Value.as_i64,
        Value.as_f64]
    | arr xs =>
      simp [ExclusiveMinimumValidator.is_valid,
        ExclusiveMinimumValidator.validate, Value.as_u64, Value.as_i64,
        Value.as_f64]
    | obj es =>
      simp [ExclusiveMinimumValidator.is_valid,
        ExclusiveMinimumValidator.validate, Value.as_u64, Value.as_i64,
        Value.as_f64]

/-- Witness for C1 at a concrete exempting validator and object instance. -/
theorem C1_is_valid_iff_validate_empty_witness :
    APValidator.is_valid (.notEmptyFalse ["a"]) (.obj [("a", .null)]) = true ↔
      APValidator.validate (.notEmptyFalse ["a"]) (.obj [("a", .null)]) = [] :=
  C1_is_valid_iff_validate_empty.1 (.notEmptyFalse ["a"]) trivial
    (.obj [("a", .null)])

/--
C2: for an exclusive-minimum limit equal to 2 to the 54, held in either the
unsigned or the signed validator variant, an instance equal to the limit is
invalid, the limit minus one is invalid, and the limit plus one is valid; the
comparisons run on exact integers, and the compiler maps the u64-stored limit
to the unsigned variant.
-/
theorem C2_exactness_at_two_pow_54 :
    ExclusiveMinimum.compile (.num (.pos (2 ^ 54))) = some (.ok (.U64 (2 ^ 54)))
    ∧ ExclusiveMinimumValidator.is_valid (.U64 (2 ^ 54)) (.num (.pos (2 ^ 54))) = false
    ∧ ExclusiveMinimumValidator.is_valid (.U64 (2 ^ 54)) (.num (.pos (2 ^ 54 - 1))) = false
    ∧ ExclusiveMinimumValidator.is_valid (.U64 (2 ^ 54)) (.num (.pos (2 ^ 54 + 1))) = true
    ∧ ExclusiveMinimumValidator.is_valid (.I64 (2 ^ 54)) (.num (.pos (2 ^ 54))) = false
    ∧ ExclusiveMinimumValidator.is_valid (.I64 (2 ^ 54)) (.num (.pos (2 ^ 54 - 1))) = false
    ∧ ExclusiveMinimumValidator.is_valid (.I64 (2 ^ 54)) (.num (.pos (2 ^ 54 + 1))) = true := by
  refine ⟨rfl, ?_, ?_, ?_, ?_, ?_, ?_⟩ <;> decide

/--
C5: validators governing one instance shape are vacuous elsewhere: every
additionalProperties variant returns true and no violations on any non-object
instance, and every exclusiveMinimum variant returns true and no violations
on any non-number instance.
-/
theorem C5_shape_vacuity :
    (∀ (v : APValidator) (inst : Value), inst.isObj = false →
        v.is_valid inst = true ∧ v.validate inst = [])
    ∧ (∀ (w : ExclusiveMinimumValidator) (inst : Value), inst.isNum = false →
        w.is_valid inst = true ∧ w.validate inst = []) := by
  constructor
  · intro v inst h
    cases inst <;>
      simp_all [Value.isObj, APValidator.is_valid, APValidator.validate]
  · intro w inst h
    cases inst <;>
      simp_all [Value.isNum, ExclusiveMinimumValidator.is_valid,
        ExclusiveMinimumValidator.validate, Value.as_u64, Value.as_i64,
        Value.as_f64]

/-- Witness for C5 at a concrete validator and non-object instance. -/
theorem C5_shape_vacuity_witness :
    Value.isObj .null = false
    ∧ (APValidator.is_valid .plainFalse .null = true
        ∧ APValidator.validate .plainFalse .null = []) :=
  ⟨rfl, C5_shape_vacuity.1 .plainFalse .null rfl⟩

/--
C6: the exclusiveMinimum compiler picks the representation by the preference
chain of the stored limit: a u64-representable limit compiles to the unsigned
variant, otherwise an i64-representable limit to the signed variant,
otherwise the float variant carrying the limit as f64.
-/
theorem C6_compile_representation_preference :
    ∀ (n : JNumber),
      (∀ u, n.as_u64 = some u →
        ExclusiveMinimum.compile (.num n) = some (.ok (.U64 u)))
      ∧ (n.as_u64 = none → ∀ i, n.as_i64 = some i →
        ExclusiveMinimum.compile (.num n) = some (.ok (.I64 i)))
      ∧ (n.as_u64 = none → n.as_i64 = none →
        ExclusiveMinimum.compile (.num n) = some (.ok (.F64 n.as_f64R))) := by
  intro n
  refine ⟨?_, ?_, ?_⟩
  · intro u hu
    simp [ExclusiveMinimum.compile, hu]
  · intro hu i hi
    simp [ExclusiveMinimum.compile, hu, hi]
  · intro hu hi
    simp [ExclusiveMinimum.compile, hu, hi]

/-- Witness for C6 at a small u64-stored limit. -/
theorem C6_compile_representation_preference_witness :
    JNumber.as_u64 (.pos 3) = some 3
    ∧ ExclusiveMinimum.compile (.num (.pos 3)) = some (.ok (.U64 3)) :=
  ⟨rfl, (C6_compile_representation_preference (.pos 3)).1 3 rfl⟩

/--
Decomposition of a list at the first element satisfying a predicate, tied to
the result of find?: everything before the first hit fails the predicate.
-/
theorem find_first_decomposition {α : Type} (p : α → Bool) (l : List α)
    (h : ∃ x ∈ l, p x = true) :
    ∃ pre e post, l = pre ++ e :: post ∧ (∀ x ∈ pre, p x = false)
      ∧ p e = true ∧ l.find? p = some e := by
  induction l with
  | nil => simp at h
  | cons a t ih =>
    cases hpa : p a with
    | true =>
      exact ⟨[], a, t, rfl, by simp, hpa, List.find?_cons_of_pos _ hpa⟩
    | false =>
      obtain ⟨x, hx, hpx⟩ := h
      rcases List.mem_cons.mp hx with hxa | hxt
      · rw [hxa] at hpx
        rw [hpa] at hpx
        simp at hpx
      · obtain ⟨pre, e, post, hl, hpre, hpe, hfind⟩ := ih ⟨x, hxt, hpx⟩
        refine ⟨a :: pre, e, post, by rw [hl]; rfl, ?_, hpe, ?_⟩
        · intro y hy
          rcases List.mem_cons.mp hy with h1 | h2
          · rw [h1]
            exact hpa
          · exact hpre y h2
        · rw [List.find?_cons_of_neg _ (by simp [hpa]), hfind]

/--
C3 counterexample: the plain forbid variant (AdditionalPropertiesFalseValidator,
whose build_validation_error is false_schema of the instance and whose
validate is the trait default) reports, on a non-empty object, one
false-schema violation carrying the full object instance — not the first
non-exempt key as a string — refuting the claim for that forbid variant.
-/
theorem C3_counterexample_plain_forbid :
    APValidator.validate .plainFalse (.obj [("b", Value.null)])
        = [.falseSchema (.obj [("b", Value.null)])]
    ∧ (match APValidator.validate .plainFalse (.obj [("b", Value.null)]) with
        | [.falseSchema (.str _)] => true
        | _ => false) = false :=
  ⟨rfl, rfl⟩

/--
C3 amended: on an object with at least one non-exempt key, each of the three
exempting forbid variants reports exactly one false-schema violation
carrying the first non-exempt key as a string, whereas the plain forbid
variant reports exactly one false-schema violation carrying the full object
instance; each subordinate-schema variant reports exactly the subordinate
violations gathered across all non-exempt property values (membership
characterization over all four subordinate variants).
-/
theorem C3_amended_forbid_first_key_vs_subordinate_all :
    (∀ (props : List String) (entries : List (String × Value)),
        (∃ x ∈ entries, (!props.contains x.1) = true) →
        ∃ pre e post, entries = pre ++ e :: post
          ∧ (∀ x ∈ pre, (!props.contains x.1) = false)
          ∧ (!props.contains e.1) = true
          ∧ APValidator.validate (.notEmptyFalse props) (.obj entries)
              = [.falseSchema (.str e.1)])
    ∧ (∀ (re : Regex) (entries : List (String × Value)),
        (∃ x ∈ entries, (!re.is_match x.1) = true) →
        ∃ pre e post, entries = pre ++ e :: post
          ∧ (∀ x ∈ pre, (!re.is_match x.1) = false)
          ∧ (!re.is_match e.1) = true
          ∧ APValidator.validate (.withPatternsFalse re) (.obj entries)
              = [.falseSchema (.str e.1)])
    ∧ (∀ (props : List String) (re : Regex) (entries : List (String × Value)),
        (∃ x ∈ entries, (!props.contains x.1 && !re.is_match x.1) = true) →
        ∃ pre e post, entries = pre ++ e :: post
          ∧ (∀ x ∈ pre, (!props.contains x.1 && !re.is_match x.1) = false)
          ∧ (!props.contains e.1 && !re.is_match e.1) = true
          ∧ APValidator.validate (.withPatternsNotEmptyFalse props re) (.obj entries)
              = [.falseSchema (.str e.1)])
    ∧ (∀ (entries : List (String × Value)), entries.isEmpty = false →
        APValidator.validate .plainFalse (.obj entries)
          = [.falseSchema (.obj entries)])
    ∧ (∀ (vs : List SubValidator) (entries : List (String × Value))
        (err : ValidationError),
        err ∈ APValidator.validate (.plainSchema vs) (.obj entries) ↔
          ∃ sv ∈ vs, ∃ x ∈ entries, err ∈ sv.validate x.2)
    ∧ (∀ (vs : List SubValidator) (props : List String)
        (entries : List (String × Value)) (err : ValidationError),
        err ∈ APValidator.validate (.notEmpty vs props) (.obj entries) ↔
          ∃ sv ∈ vs, ∃ x ∈ entries,
            (!props.contains x.1) = true ∧ err ∈ sv.validate x.2)
    ∧ (∀ (vs : List SubValidator) (re : Regex)
        (entries : List (String × Value)) (err : ValidationError),
        err ∈ APValidator.validate (.withPatterns vs re) (.obj entries) ↔
          ∃ sv ∈ vs, ∃ x ∈ entries,
            (!re.is_match x.1) = true ∧ err ∈ sv.validate x.2)
    ∧ (∀ (vs : List SubValidator) (props : List String) (re : Regex)
        (entries : List (String × Value)) (err : ValidationError),
        err ∈ APValidator.validate (.withPatternsNotEmpty vs props re) (.obj entries) ↔
          ∃ sv ∈ vs, ∃ x ∈ entries,
            (!(props.contains x.1 || re.is_match x.1)) = true
              ∧ err ∈ sv.validate x.2) := by
  refine ⟨?_, ?_, ?_, ?_, ?_, ?_, ?_, ?_⟩
  · intro props entries h
    obtain ⟨pre, e, post, hl, hpre, hpe, hfind⟩ :=
      find_first_decomposition (fun x => !props.contains x.1) entries h
    refine ⟨pre, e, post, hl, hpre, hpe, ?_⟩
    simp only [APValidator.validate, APValidator.validate_object, hfind]
  · intro re entries h
    obtain ⟨pre, e, post, hl, hpre, hpe, hfind⟩ :=
      find_first_decomposition (fun x => !re.is_match x.1) entries h
    refine ⟨pre, e, post, hl, hpre, hpe, ?_⟩
    simp only [APValidator.validate, APValidator.validate_object, hfind]
  · intro props re entries h
    obtain ⟨pre, e, post, hl, hpre, hpe, hfind⟩ :=
      find_first_decomposition
        (fun x => !props.contains x.1 && !re.is_match x.1) entries h
    refine ⟨pre, e, post, hl, hpre, hpe, ?_⟩
    simp only [APValidator.validate, APValidator.validate_object, hfind]
  · intro entries hne
    simp [APValidator.validate, APValidator.validate_object, hne]
  · intro vs entries err
    simp only [APValidator.validate, APValidator.validate_object,
      List.mem_flatMap]
  · intro vs props entries err
    simp only [APValidator.validate, APValidator.validate_object,
      List.mem_flatMap, List.mem_filter]
    tauto
  · intro vs re entries err
    simp only [APValidator.validate, APValidator.validate_object,
      List.mem_flatMap, List.mem_filter]
    tauto
  · intro vs props re entries err
    simp only [APValidator.validate, APValidator.validate_object,
      List.mem_flatMap, List.mem_filter]
    tauto

/-- Witness for the amended C3 at a concrete forbid validator and instance. -/
theorem C3_amended_forbid_first_key_vs_subordinate_all_witness :
    (∃ x ∈ [("b", Value.null)], (!(([] : List String)).contains x.1) = true)
    ∧ ∃ pre e post, [("b", Value.null)] = pre ++ e :: post
        ∧ (∀ x ∈ pre, (!(([] : List String)).contains x.1) = false)
        ∧ (!(([] : List String)).contains e.1) = true
        ∧ APValidator.validate (.notEmptyFalse []) (.obj [("b", Value.null)])
            = [.falseSchema (.str e.1)] :=
  ⟨⟨("b", Value.null), by simp, rfl⟩,
    C3_amended_forbid_first_key_vs_subordinate_all.1 [] [("b", Value.null)]
      ⟨("b", Value.null), by simp, rfl⟩⟩

/-- A sublist maps to a sublist under flatMap. -/
theorem sublist_flatMap {α β : Type} {l₁ l₂ : List α} (f : α → List β)
    (h : List.Sublist l₁ l₂) :
    List.Sublist (l₁.flatMap f) (l₂.flatMap f) := by
  induction h with
  | slnil => exact List.Sublist.refl _
  | cons a h ih => exact List.sublist_append_of_sublist_right ih
  | cons₂ a h ih => exact ih.append_left _

/-- Pointwise sublists concatenate to a sublist under flatMap. -/
theorem flatMap_sublist_of_forall {α β : Type} (l : List α) (f g : α → List β)
    (h : ∀ a ∈ l, List.Sublist (f a) (g a)) :
    List.Sublist (l.flatMap f) (l.flatMap g) := by
  induction l with
  | nil => simp
  | cons a t ih =>
    simp only [List.flatMap_cons]
    exact (h a (by simp)).append (ih fun x hx => h x (by simp [hx]))

/-- Filtering with a stronger predicate yields a sublist of the weaker filter. -/
theorem filter_sublist_mono {α : Type} (l : List α) (p q : α → Bool)
    (h : ∀ x, p x = true → q x = true) :
    List.Sublist (l.filter p) (l.filter q) := by
  apply List.monotone_filter_right
  intro x
  cases hp : p x
  · exact Bool.false_le _
  · exact le_of_eq (h x hp).symm

/--
C8: widening the exemptions while holding the keyword value fixed is
monotone.  For the subordinate-schema variant with names and patterns, the
whole violation list under the wider exemptions is a sublist of the one under
the narrower exemptions, so per-key violations only disappear.  For the
forbid variant with names and patterns, a key covered by the exemption set or
the pattern is never the reported violation.
-/
theorem C8_exemption_monotonicity :
    (∀ (vs : List SubValidator) (props₁ props₂ : List String)
        (re₁ re₂ : Regex) (entries : List (String × Value)),
        (∀ k, k ∈ props₁ → k ∈ props₂) →
        (∀ s, re₁.is_match s = true → re₂.is_match s = true) →
        List.Sublist
          (APValidator.validate (.withPatternsNotEmpty vs props₂ re₂) (.obj entries))
          (APValidator.validate (.withPatternsNotEmpty vs props₁ re₁) (.obj entries)))
    ∧ (∀ (props : List String) (re : Regex) (entries : List (String × Value))
        (k x : String),
        (props.contains k || re.is_match k) = true →
        APValidator.validate (.withPatternsNotEmptyFalse props re) (.obj entries)
            = [.falseSchema (.str x)] →
        x ≠ k) := by
  constructor
  · intro vs props₁ props₂ re₁ re₂ entries hprops hre
    simp only [APValidator.validate, APValidator.validate_object]
    apply flatMap_sublist_of_forall
    intro sv _
    apply sublist_flatMap
    apply filter_sublist_mono
    intro e he
    cases h1 : props₁.contains e.1 with
    | false =>
      cases h2 : re₁.is_match e.1 with
      | false => rfl
      | true =>
        rw [hre e.1 h2] at he
        simp at he
    | true =>
      have h1m : e.1 ∈ props₂ := hprops e.1 (by simpa using h1)
      simp at he
      exact absurd h1m he.1
  · intro props re entries k x hexempt hout
    simp only [APValidator.validate, APValidator.validate_object] at hout
    cases hf : entries.find? (fun e => !props.contains e.1 && !re.is_match e.1) with
    | none =>
      rw [hf] at hout
      simp at hout
    | some e =>
      rw [hf] at hout
      have hpe := List.find?_some hf
      have hex : e.1 = x := by
        simpa using hout
      intro hxk
      rw [hex, hxk] at hpe
      cases hc : props.contains k <;> cases hm : re.is_match k <;>
        rw [hc, hm] at hpe hexempt <;> simp_all

/-- Witness for C8 at concrete exemption sets and instances. -/
theorem C8_exemption_monotonicity_witness :
    List.Sublist
      (APValidator.validate
        (.withPatternsNotEmpty [] ["a"] ⟨fun _ => false⟩)
        (.obj [("a", Value.null)]))
      (APValidator.validate
        (.withPatternsNotEmpty [] [] ⟨fun _ => false⟩)
        (.obj [("a", Value.null)])) :=
  C8_exemption_monotonicity.1 [] [] ["a"] ⟨fun _ => false⟩ ⟨fun _ => false⟩
    [("a", Value.null)] (by simp) (fun s h => h)

/--
C10: every exclusive-minimum violation record stores the compiled limit cast
to f64; for the integer limit 2 to the 53 plus 1 the recorded limit is 2 to
the 53, strictly below the compiled limit, while the verdict still compares
exact integers (the instance equal to 2 to the 53 plus 1 is correctly
accepted against the limit 2 to the 53 and rejected against the limit 2 to
the 53 plus 1, which would be indistinguishable after f64 rounding).
-/
theorem C10_violation_limit_f64_cast :
    (∀ (v : ExclusiveMinimumValidator) (inst : Value),
        v.build_validation_error inst = .exclusiveMinimum inst v.limit_as_f64)
    ∧ ExclusiveMinimumValidator.limit_as_f64 (.U64 (2 ^ 53 + 1)) = ((2 ^ 53 : Nat) : Rat)
    ∧ ExclusiveMinimumValidator.limit_as_f64 (.U64 (2 ^ 53 + 1)) < ((2 ^ 53 + 1 : Nat) : Rat)
    ∧ castF64Nat (2 ^ 53 + 1) = castF64Nat (2 ^ 53)
    ∧ ExclusiveMinimumValidator.is_valid (.U64 (2 ^ 53)) (.num (.pos (2 ^ 53 + 1))) = true
    ∧ ExclusiveMinimumValidator.is_valid (.U64 (2 ^ 53 + 1)) (.num (.pos (2 ^ 53 + 1))) = false := by
  refine ⟨fun v inst => rfl, by decide, by decide, by decide, by decide, by decide⟩

/--
C7: when the patternProperties sibling is present but is not an object, or
its joined pattern union fails to compile, the additionalProperties compiler
returns a schema error at compile time (for every keyword value), so the
failure is never deferred to a validator.
-/
theorem C7_pattern_union_error_at_compile_time :
    ∀ (parent : List (String × Value)) (schema patterns : Value)
      (rNew : String → Option Regex)
      (cv : Value → Except CompilationError (List SubValidator)),
      AdditionalProperties.getKey parent "patternProperties" = some patterns →
      ((patterns.isObj = false →
          AdditionalProperties.compile parent schema rNew cv
            = some (.error .schemaError))
        ∧ ∀ po, patterns = .obj po →
            rNew (String.intercalate "|" (po.map (·.1))) = none →
            AdditionalProperties.compile parent schema rNew cv
              = some (.error .schemaError)) := by
  intro parent schema patterns rNew cv hpat
  constructor
  · intro hobj
    simp only [AdditionalProperties.compile, hpat]
    cases patterns <;> simp_all [Value.isObj]
  · intro po hpo hre
    rw [hpo] at hpat
    simp only [AdditionalProperties.compile, hpat, hre]

/-- Witness for C7 at a non-object patternProperties sibling. -/
theorem C7_pattern_union_error_at_compile_time_witness :
    AdditionalProperties.getKey [("patternProperties", Value.bool true)]
        "patternProperties" = some (.bool true)
    ∧ Value.isObj (.bool true) = false
    ∧ AdditionalProperties.compile [("patternProperties", Value.bool true)]
        (.bool false) (fun _ => none) (fun _ => .ok [])
        = some (.error .schemaError) :=
  ⟨rfl, rfl,
    (C7_pattern_union_error_at_compile_time
      [("patternProperties", Value.bool true)] (.bool false) (.bool true)
      (fun _ => none) (fun _ => .ok []) rfl).1 rfl⟩

/--
C9: a patternProperties sibling that is an empty object joins to the empty
pattern; assuming the regex engine's empty pattern (which matches every
string), the validator compiled for additionalProperties false accepts every
instance and reports no violations.
-/
theorem C9_empty_pattern_union_accepts_all :
    ∀ (parent : List (String × Value)) (rNew : String → Option Regex)
      (cv : Value → Except CompilationError (List SubValidator))
      (rEmpty : Regex),
      AdditionalProperties.getKey parent "patternProperties" = some (.obj []) →
      rNew "" = some rEmpty →
      (∀ s, rEmpty.is_match s = true) →
      (String.intercalate "|" (([] : List (String × Value)).map (·.1)) = ""
        ∧ ∀ V, AdditionalProperties.compile parent (.bool false) rNew cv
              = some (.ok V) →
            ∀ inst, V.is_valid inst = true ∧ V.validate inst = []) := by
  intro parent rNew cv rEmpty hpat hre hall
  refine ⟨rfl, ?_⟩
  intro V hV inst
  simp only [AdditionalProperties.compile, hpat] at hV
  rw [show String.intercalate "|" (([] : List (String × Value)).map (·.1))
      = "" from rfl] at hV
  rw [hre] at hV
  cases hprop : AdditionalProperties.getKey parent "properties" with
  | none =>
    rw [hprop] at hV
    simp only [Option.some.injEq, Except.ok.injEq] at hV
    rw [← hV]
    constructor
    · cases inst with
      | obj entries =>
        simp only [APValidator.is_valid, APValidator.is_valid_object]
        exact List.all_eq_true.mpr fun e _ => hall e.1
      | null => rfl
      | bool b => rfl
      | num n => rfl
      | str s => rfl
      | arr xs => rfl
    · cases inst with
      | obj entries =>
        simp only [APValidator.validate, APValidator.validate_object]
        rw [List.find?_eq_none.mpr fun x _ => by simp [hall x.1]]
      | null => rfl
      | bool b => rfl
      | num n => rfl
      | str s => rfl
      | arr xs => rfl
  | some props =>
    rw [hprop] at hV
    cases props with
    | obj es =>
      simp only [AdditionalProperties.compileWithPatternsNotEmptyFalse,
        Option.some.injEq, Except.ok.injEq] at hV
      rw [← hV]
      constructor
      · cases inst with
        | obj entries =>
          simp only [APValidator.is_valid, APValidator.is_valid_object]
          exact List.all_eq_true.mpr fun e _ => by simp [hall e.1]
        | null => rfl
        | bool b => rfl
        | num n => rfl
        | str s => rfl
        | arr xs => rfl
      · cases inst with
        | obj entries =>
          simp only [APValidator.validate, APValidator.validate_object]
          rw [List.find?_eq_none.mpr fun x _ => by simp [hall x.1]]
        | null => rfl
        | bool b => rfl
        | num n => rfl
        | str s => rfl
        | arr xs => rfl
    | null => simp [AdditionalProperties.compileWithPatternsNotEmptyFalse] at hV
    | bool b => simp [AdditionalProperties.compileWithPatternsNotEmptyFalse] at hV
    | num n => simp [AdditionalProperties.compileWithPatternsNotEmptyFalse] at hV
    | str s => simp [AdditionalProperties.compileWithPatternsNotEmptyFalse] at hV
    | arr xs => simp [AdditionalProperties.compileWithPatternsNotEmptyFalse] at hV

/-- Witness for C9 at a concrete parent and instance. -/
theorem C9_empty_pattern_union_accepts_all_witness :
    AdditionalProperties.getKey [("patternProperties", Value.obj [])]
        "patternProperties" = some (.obj [])
    ∧ (APValidator.is_valid (.withPatternsFalse ⟨fun _ => true⟩)
          (.obj [("k", Value.null)]) = true
        ∧ APValidator.validate (.withPatternsFalse ⟨fun _ => true⟩)
            (.obj [("k", Value.null)]) = []) :=
  ⟨rfl,
    (C9_empty_pattern_union_accepts_all
      [("patternProperties", Value.obj [])]
      (fun _ => some ⟨fun _ => true⟩) (fun _ => .ok []) ⟨fun _ => true⟩
      rfl rfl (fun _ => rfl)).2
      (.withPatternsFalse ⟨fun _ => true⟩) rfl (.obj [("k", Value.null)])⟩

/--
C4 counterexample: with a malformed (non-object) patternProperties sibling,
the dispatch-level compile returns Some(Err(SchemaError)) even though the
additionalProperties value is the boolean true, contradicting the claim that
boolean true always yields None for every parent schema object.
-/
theorem C4_counterexample_true_with_malformed_sibling :
    (AdditionalProperties.compile [("patternProperties", Value.num (.pos 5))]
        (.bool true) (fun _ => none) (fun _ => .ok [])).isNone = false
    ∧ AdditionalProperties.compile [("patternProperties", Value.num (.pos 5))]
        (.bool true) (fun _ => none) (fun _ => .ok [])
        = some (.error .schemaError) :=
  ⟨rfl, rfl⟩

/--
C4 amended: the dispatch-level compile returns None exactly when the
additionalProperties value is the boolean true and the patternProperties
sibling is absent or is an object whose joined pattern union compiles; a
malformed sibling produces Some(Err(SchemaError)) even when the keyword's
own value is true.
-/
theorem C4_amended_none_iff_noop :
    ∀ (parent : List (String × Value)) (schema : Value)
      (rNew : String → Option Regex)
      (cv : Value → Except CompilationError (List SubValidator)),
      (AdditionalProperties.compile parent schema rNew cv = none ↔
        (schema = .bool true
          ∧ (AdditionalProperties.getKey parent "patternProperties" = none
            ∨ ∃ po re,
                AdditionalProperties.getKey parent "patternProperties"
                    = some (.obj po)
                  ∧ rNew (String.intercalate "|" (po.map (·.1)))
                      = some re))) := by
  intro parent schema rNew cv
  simp only [AdditionalProperties.compile]
  cases hpat : AdditionalProperties.getKey parent "patternProperties" with
  | none =>
    cases schema with
    | bool b =>
      cases b with
      | true => simp
      | false =>
        cases hprop : AdditionalProperties.getKey parent "properties" <;> simp
    | null =>
      cases hprop : AdditionalProperties.getKey parent "properties" <;> simp
    | num n =>
      cases hprop : AdditionalProperties.getKey parent "properties" <;> simp
    | str s =>
      cases hprop : AdditionalProperties.getKey parent "properties" <;> simp
    | arr xs =>
      cases hprop : AdditionalProperties.getKey parent "properties" <;> simp
    | obj es =>
      cases hprop : AdditionalProperties.getKey parent "properties" <;> simp
  | some patterns =>
    cases patterns with
    | obj po =>
      cases hre : rNew (String.intercalate "|" (po.map (·.1))) with
      | some re =>
        cases schema with
        | bool b =>
          cases b with
          | true => simp [hre]
          | false =>
            cases hprop : AdditionalProperties.getKey parent "properties" <;>
              simp [hre]
        | null =>
          cases hprop : AdditionalProperties.getKey parent "properties" <;>
            simp [hre]
        | num n =>
          cases hprop : AdditionalProperties.getKey parent "properties" <;>
            simp [hre]
        | str s =>
          cases hprop : AdditionalProperties.getKey parent "properties" <;>
            simp [hre]
        | arr xs =>
          cases hprop : AdditionalProperties.getKey parent "properties" <;>
            simp [hre]
        | obj es =>
          cases hprop : AdditionalProperties.getKey parent "properties" <;>
            simp [hre]
      | none => simp [hre]
    | null => simp
    | bool b => simp
    | num n => simp
    | str s => simp
    | arr xs => simp

/-- Witness instantiating the amended C4 characterization. -/
theorem C4_amended_none_iff_noop_witness :
    AdditionalProperties.compile [] (.bool true) (fun _ => none)
        (fun _ => .ok []) = none ↔
      ((Value.bool true) = .bool true
        ∧ (AdditionalProperties.getKey [] "patternProperties" = none
          ∨ ∃ po re,
              AdditionalProperties.getKey [] "patternProperties"
                  = some (.obj po)
                ∧ (fun (_ : String) => (none : Option Regex))
                    (String.intercalate "|" (po.map (·.1))) = some re)) :=
  C4_amended_none_iff_noop [] (.bool true) (fun _ => none) (fun _ => .ok [])

end JsonschemaRs
